import Mathlib

/-!
Shallow embedding of the covert-channel cache core (src/main.c) and
verification of its specification claims.

Machine integers are modelled as `Nat` with explicit reduction modulo
`2^32` (for the C type uint32_t) or `2^64` (for size_t / uint64_t /
uintptr_t) exactly at the operations where C arithmetic can wrap.
Pointers into the owned buffer are modelled as byte offsets from the
buffer base; the buffer contents are a function from offsets to bytes.
Hardware timing (the rdtscp-based timed_read) is nondeterministic and is
modelled by an oracle function giving the measured duration of each
timed read.
-/

namespace Covert

/-- Modulus of the C type uint32_t. -/
def UINT32_MOD : Nat := 2 ^ 32

/-- Modulus of the C types size_t, uint64_t and uintptr_t (LP64). -/
def SIZE_T_MOD : Nat := 2 ^ 64

/-- Iteration structure of the while-loop in dlog2, made structural via
an explicit fuel argument so that the definition evaluates inside the
kernel; the loop shifts n right by one and counts iterations until n is
zero. Any fuel of at least n steps is adequate, since n strictly
decreases each iteration. -/
def dlog2_iters_fuel : Nat → Nat → Nat
  | 0, _ => 0
  | fuel + 1, n => if n = 0 then 0 else dlog2_iters_fuel fuel (n / 2) + 1

/-- Number of iterations of the while-loop in dlog2 on input n: the bit
length of n. -/
def dlog2_iters (n : Nat) : Nat := dlog2_iters_fuel n n

/-- Embedding of dlog2 from src/main.c: k is a uint32_t counter
incremented once per loop iteration (kept reduced mod 2^32), and the
function returns k - 1 in uint32_t arithmetic, which wraps to
2^32 - 1 when the loop never ran (n = 0). -/
def dlog2 (n : Nat) : Nat :=
  (dlog2_iters n % UINT32_MOD + (UINT32_MOD - 1)) % UINT32_MOD

theorem dlog2_iters_fuel_zero_input : ∀ f, dlog2_iters_fuel f 0 = 0
  | 0 => rfl
  | _ + 1 => rfl

/-- The loop count does not depend on the fuel, as long as the fuel is
adequate. -/
theorem dlog2_iters_fuel_congr :
    ∀ f1 f2 n, n ≤ f1 → n ≤ f2 →
      dlog2_iters_fuel f1 n = dlog2_iters_fuel f2 n := by
  intro f1
  induction f1 with
  | zero =>
    intro f2 n h1 _
    have : n = 0 := by omega
    subst this
    rw [dlog2_iters_fuel_zero_input, dlog2_iters_fuel_zero_input]
  | succ m ih =>
    intro f2 n h1 h2
    rcases Nat.eq_zero_or_pos n with hn | hn
    · subst hn
      rw [dlog2_iters_fuel_zero_input, dlog2_iters_fuel_zero_input]
    · obtain ⟨m2, rfl⟩ : ∃ m2, f2 = m2 + 1 := ⟨f2 - 1, by omega⟩
      show dlog2_iters_fuel (m + 1) n = dlog2_iters_fuel (m2 + 1) n
      rw [dlog2_iters_fuel, dlog2_iters_fuel]
      simp only [Nat.pos_iff_ne_zero.mp hn, if_false]
      have hhalf : n / 2 < n := Nat.div_lt_self hn (by decide)
      rw [ih m2 (n / 2) (by omega) (by omega)]

theorem dlog2_iters_zero : dlog2_iters 0 = 0 := rfl

theorem dlog2_iters_of_ne_zero {n : Nat} (h : n ≠ 0) :
    dlog2_iters n = dlog2_iters (n / 2) + 1 := by
  obtain ⟨m, rfl⟩ : ∃ m, n = m + 1 := ⟨n - 1, by omega⟩
  show dlog2_iters_fuel (m + 1) (m + 1) = _
  rw [dlog2_iters_fuel]
  simp only [h, if_false, dlog2_iters]
  have hhalf : (m + 1) / 2 < m + 1 := Nat.div_lt_self (by omega) (by decide)
  rw [dlog2_iters_fuel_congr m ((m + 1) / 2) ((m + 1) / 2) (by omega) (by omega)]

/-- The loop count on a positive input is the floor log plus one. -/
theorem dlog2_iters_eq_log {n : Nat} (h : 1 ≤ n) :
    dlog2_iters n = Nat.log 2 n + 1 := by
  induction n using Nat.strong_induction_on with
  | _ n ih =>
    rcases Nat.lt_or_ge n 2 with h2 | h2
    · interval_cases n
      rw [dlog2_iters_of_ne_zero (by omega)]
      simp [dlog2_iters_zero, Nat.log_one_right]
    · rw [dlog2_iters_of_ne_zero (by omega)]
      have hdiv : 1 ≤ n / 2 := by omega
      have hlt : n / 2 < n := by omega
      rw [ih (n / 2) hlt hdiv]
      have hpos : 0 < Nat.log 2 n := Nat.log_pos (by decide) h2
      have hdb : Nat.log 2 (n / 2) = Nat.log 2 n - 1 := Nat.log_div_base 2 n
      omega

theorem dlog2_iters_pow (k : Nat) : dlog2_iters (2 ^ k) = k + 1 := by
  rw [dlog2_iters_eq_log (Nat.one_le_two_pow), Nat.log_pow (by decide)]

/-- For positive inputs below 2^64 the wrap in the final decrement never
takes effect. -/
theorem dlog2_eq_log {n : Nat} (h1 : 1 ≤ n) (h2 : n < 2 ^ 64) :
    dlog2 n = Nat.log 2 n := by
  have hlog : Nat.log 2 n < 64 := Nat.log_lt_of_lt_pow (by omega) h2
  rw [dlog2, dlog2_iters_eq_log h1, UINT32_MOD]
  omega

theorem dlog2_pow {k : Nat} (h : k < 64) : dlog2 (2 ^ k) = k := by
  rw [dlog2, dlog2_iters_pow, UINT32_MOD]
  omega

/-- C6: dlog2 satisfies dlog2 1 = 0, dlog2 2 = 1, dlog2 (2^k) = k for
every k with 2^k representable in the 64-bit input type, and on every
positive representable input it computes the floor of the base-2
logarithm. -/
theorem dlog2_spec :
    dlog2 1 = 0 ∧ dlog2 2 = 1 ∧
      (∀ k, k < 64 → dlog2 (2 ^ k) = k) ∧
      (∀ n, 1 ≤ n → n < 2 ^ 64 → dlog2 n = Nat.log 2 n) :=
  ⟨by decide, by decide, fun _ hk => dlog2_pow hk,
    fun _ h1 h2 => dlog2_eq_log h1 h2⟩

/-- Witness for C6 at concrete inputs. -/
theorem dlog2_spec_witness :
    dlog2 (2 ^ 10) = 10 ∧ dlog2 100 = Nat.log 2 100 :=
  ⟨dlog2_spec.2.2.1 10 (by decide), dlog2_spec.2.2.2 100 (by decide) (by decide)⟩

/-- C7: on the zero input the loop body never runs, so the uint32_t
subtraction k - 1 wraps and dlog2 returns 2^32 - 1. -/
theorem dlog2_zero : dlog2 0 = 2 ^ 32 - 1 := by decide

/-- Embedding of the cache_t structure from src/main.c. The owned
buffer is modelled by its contents: a function from byte offsets (from
the buffer base) to byte values. -/
structure cache_t where
  size : Nat
  line_size : Nat
  set_size : Nat
  assoc : Nat
  nsets : Nat
  offset_mask : Nat
  index_mask : Nat
  tag_mask : Nat
  index_shift : Nat
  tag_shift : Nat
  hit_latency : Nat
  miss_latency : Nat
  hit_threshold : Nat
  buffer_size : Nat
  buffer : Nat → Nat

instance : Inhabited cache_t :=
  ⟨{ size := 0, line_size := 0, set_size := 0, assoc := 0, nsets := 0,
     offset_mask := 0, index_mask := 0, tag_mask := 0, index_shift := 0,
     tag_shift := 0, hit_latency := 0, miss_latency := 0,
     hit_threshold := 0, buffer_size := 0, buffer := fun _ => 0 }⟩

/-- Number of calibration trials (NTRIALS in cache_init). -/
def NTRIALS : Nat := 1024

/-- One calibration loop of cache_init: the uint64_t accumulator mean
sums the NTRIALS timed reads (wrapping mod 2^64) and is then divided by
NTRIALS. The duration of the timed read of trial t is given by the
oracle meas. -/
def calib_mean (meas : Nat → Nat) : Nat :=
  ((List.range NTRIALS).map meas).sum % SIZE_T_MOD / NTRIALS

/-- Embedding of cache_init from src/main.c. The host-reported geometry
(sysconf results) enters as size, line_size, assoc; alloc_ok tells
whether aligned_alloc succeeded; buf0 is the allocator-provided initial
contents of the buffer; hitMeas and missMeas are the timing oracles for
the two calibration loops. Returns none exactly when the code returns
-1 (allocation failure), otherwise some of the fully initialized
descriptor. All size_t and uint64_t arithmetic is reduced mod 2^64 and
the uint32_t shift addition mod 2^32, exactly as C wraps. -/
def cache_init (size line_size assoc : Nat) (alloc_ok : Bool)
    (buf0 hitMeas missMeas : Nat → Nat) : Option cache_t :=
  let set_size := line_size * assoc % SIZE_T_MOD
  let nsets := size / set_size
  let index_shift := dlog2 line_size
  let tag_shift := (dlog2 nsets + index_shift) % UINT32_MOD
  let offset_mask := (line_size + (SIZE_T_MOD - 1)) % SIZE_T_MOD
  let index_mask := ((nsets + (SIZE_T_MOD - 1)) % SIZE_T_MOD) <<< index_shift % SIZE_T_MOD
  let tag_mask := (SIZE_T_MOD - 1) <<< tag_shift % SIZE_T_MOD
  let buffer_size := size * assoc % SIZE_T_MOD
  if alloc_ok then
    let hit_latency := calib_mean hitMeas
    let miss_latency := calib_mean missMeas
    let hit_threshold := (hit_latency + miss_latency) % SIZE_T_MOD / 2
    some
      { size := size, line_size := line_size, set_size := set_size,
        assoc := assoc, nsets := nsets, offset_mask := offset_mask,
        index_mask := index_mask, tag_mask := tag_mask,
        index_shift := index_shift, tag_shift := tag_shift,
        hit_latency := hit_latency, miss_latency := miss_latency,
        hit_threshold := hit_threshold, buffer_size := buffer_size,
        buffer := fun i => if i < size then 0 else buf0 i }
  else none

/-- The probe address (as an offset from the buffer base) used by the
set-level operations for way k of set setno: the loops start at
buffer + (setno << index_shift) and advance by nsets << index_shift per
iteration. -/
def probe_addr (c : cache_t) (setno k : Nat) : Nat :=
  (setno <<< c.index_shift) + k * (c.nsets <<< c.index_shift)

/-- Hit classification used by cache_count_hits: a timed read of
duration dur is counted as a hit exactly when
cache->hit_threshold >= dur. -/
def classify_hit (c : cache_t) (dur : Nat) : Bool :=
  decide (dur ≤ c.hit_threshold)

/-- Embedding of cache_flush_set: returns the int result together with
the list of buffer offsets whose lines are flushed, in order. -/
def cache_flush_set (c : cache_t) (setno : Nat) : Int × List Nat :=
  if c.nsets ≤ setno then (-1, [])
  else (0, (List.range c.assoc).map (probe_addr c setno))

/-- Embedding of cache_fill_set: returns the int result together with
the list of buffer offsets read (touched), in order. -/
def cache_fill_set (c : cache_t) (setno : Nat) : Int × List Nat :=
  if c.nsets ≤ setno then (-1, [])
  else (0, (List.range c.assoc).map (probe_addr c setno))

/-- Embedding of cache_count_hits. dur is the timing oracle giving the
duration of the timed read of iteration k. Returns the int result (the
hit count, or -1 for an out-of-range set index), the list of buffer
offsets read, and the number of times the out-of-buffer diagnostic
(printf of the string sadface) fired: that check tests the
post-increment pointer against buffer + buffer_size and only prints,
never aborting. -/
def cache_count_hits (c : cache_t) (dur : Nat → Nat) (setno : Nat) :
    Int × List Nat × Nat :=
  if c.nsets ≤ setno then (-1, [], 0)
  else
    (((List.range c.assoc).countP (fun k => classify_hit c (dur k)) : Int),
     (List.range c.assoc).map (probe_addr c setno),
     (List.range c.assoc).countP
       (fun k => !decide (probe_addr c setno (k + 1) < c.buffer_size)))

/-- The errno value EINVAL returned by pthread_setaffinity_np for an
affinity mask naming no usable CPU. -/
def EINVAL : Int := 22

/-- Number of CPU slots in a cpu_set_t (glibc CPU_SETSIZE). -/
def CPU_SETSIZE : Nat := 1024

/-- Model of the external libc call pthread_setaffinity_np: succeeds
(returns 0) when the requested set names at least one CPU that exists
on the host (ncpus logical CPUs), and fails with EINVAL otherwise. -/
def pthread_setaffinity_np_model (ncpus : Nat) (cpuset : List Nat) : Int :=
  if cpuset ≠ [] ∧ ∀ k ∈ cpuset, k < ncpus then 0 else EINVAL

/-- Embedding of pin_current_thread from src/main.c: CPU_ZERO then
CPU_SET of cpuno (glibc CPU_SET ignores identifiers at or beyond
CPU_SETSIZE), then pthread_setaffinity_np whose return value the code
discards; the function itself always returns 0. The first component is
the value pin_current_thread returns to its caller; the second is the
discarded result of the affinity call. -/
def pin_current_thread (ncpus cpuno : Nat) : Int × Int :=
  let cpuset : List Nat := if cpuno < CPU_SETSIZE then [cpuno] else []
  (0, pthread_setaffinity_np_model ncpus cpuset)

set_option maxRecDepth 1000000

/-- Unfolding equation of cache_init in the successful-allocation case. -/
theorem cache_init_eq (size line_size assoc : Nat) (buf0 hm mm : Nat → Nat) :
    cache_init size line_size assoc true buf0 hm mm = some
      { size := size, line_size := line_size,
        set_size := line_size * assoc % SIZE_T_MOD,
        assoc := assoc,
        nsets := size / (line_size * assoc % SIZE_T_MOD),
        offset_mask := (line_size + (SIZE_T_MOD - 1)) % SIZE_T_MOD,
        index_mask := ((size / (line_size * assoc % SIZE_T_MOD) + (SIZE_T_MOD - 1)) %
          SIZE_T_MOD) <<< dlog2 line_size % SIZE_T_MOD,
        tag_mask := (SIZE_T_MOD - 1) <<<
          ((dlog2 (size / (line_size * assoc % SIZE_T_MOD)) + dlog2 line_size) %
            UINT32_MOD) % SIZE_T_MOD,
        index_shift := dlog2 line_size,
        tag_shift := (dlog2 (size / (line_size * assoc % SIZE_T_MOD)) +
          dlog2 line_size) % UINT32_MOD,
        hit_latency := calib_mean hm,
        miss_latency := calib_mean mm,
        hit_threshold := (calib_mean hm + calib_mean mm) % SIZE_T_MOD / 2,
        buffer_size := size * assoc % SIZE_T_MOD,
        buffer := fun i => if i < size then 0 else buf0 i } := rfl

/-- The calibration mean fits well below the uint64_t range. -/
theorem calib_mean_lt (meas : Nat → Nat) : calib_mean meas < 2 ^ 54 := by
  have h : ((List.range NTRIALS).map meas).sum % SIZE_T_MOD < 2 ^ 64 :=
    Nat.mod_lt _ (by decide)
  rw [calib_mean, NTRIALS]
  rw [SIZE_T_MOD] at h ⊢
  omega

/-- Aligned low-bit masks combine into a longer low-bit mask. -/
theorem lowMask_or_shiftLeft (p q : Nat) :
    (2 ^ p - 1) ||| ((2 ^ q - 1) <<< p) = 2 ^ (p + q) - 1 := by
  apply Nat.eq_of_testBit_eq
  intro i
  simp only [Nat.testBit_or, Nat.testBit_shiftLeft, Nat.testBit_two_pow_sub_one,
    ge_iff_le, Bool.and_eq_decide, Bool.or_eq_decide]
  rw [decide_eq_decide]
  omega

/-- A low-bit mask is disjoint from anything shifted past it. -/
theorem lowMask_and_shiftLeft (p : Nat) (x : Nat) :
    (2 ^ p - 1) &&& (x <<< p) = 0 := by
  apply Nat.eq_of_testBit_eq
  intro i
  simp only [Nat.testBit_and, Nat.testBit_shiftLeft, Nat.testBit_two_pow_sub_one,
    ge_iff_le, Nat.zero_testBit]
  by_cases h : i < p
  · simp [h, show ¬ p ≤ i by omega]
  · simp [h]

/-- Bitwise and distributes over a common left shift. -/
theorem shiftLeft_and_shiftLeft (x y p : Nat) :
    (x <<< p) &&& (y <<< p) = (x &&& y) <<< p := by
  apply Nat.eq_of_testBit_eq
  intro i
  simp only [Nat.testBit_and, Nat.testBit_shiftLeft, ge_iff_le]
  by_cases h : p ≤ i
  · simp [h]
  · simp [h]

/-- Truncating an all-ones word shifted left by s to w bits gives the
top w - s bits. -/
theorem topMask_eq (w s : Nat) (h : s ≤ w) :
    (2 ^ w - 1) <<< s % 2 ^ w = (2 ^ (w - s) - 1) <<< s := by
  apply Nat.eq_of_testBit_eq
  intro i
  simp only [Nat.testBit_mod_two_pow, Nat.testBit_shiftLeft,
    Nat.testBit_two_pow_sub_one, ge_iff_le, Bool.and_eq_decide]
  rw [decide_eq_decide]
  omega

/-- Bitwise and with a low mask is reduction mod the power of two. -/
theorem and_two_pow_sub_one (a n : Nat) : a &&& (2 ^ n - 1) = a % 2 ^ n := by
  apply Nat.eq_of_testBit_eq
  intro i
  simp only [Nat.testBit_and, Nat.testBit_two_pow_sub_one, Nat.testBit_mod_two_pow]
  exact Bool.and_comm _ _

/-- Concrete descriptor for exercising C2: geometry 64/64/1, allocation
succeeds, every hit-calibration trial measures 200 cycles and every
miss-calibration trial measures 100 cycles. -/
def cacheC2 : cache_t :=
  (cache_init 64 64 1 true (fun _ => 0) (fun _ => 200) (fun _ => 100)).getD default

/-- C2 evidence: cache_init performs no calibration-validity check. On
a calibration measuring hit latency 200 >= miss latency 100, it still
returns success, with the meaningless threshold 150 installed, instead
of a distinct construction-failure value. -/
theorem cache_init_succeeds_on_inverted_calibration :
    cache_init 64 64 1 true (fun _ => 0) (fun _ => 200) (fun _ => 100) = some cacheC2 ∧
    cacheC2.hit_latency = 200 ∧ cacheC2.miss_latency = 100 ∧
    cacheC2.miss_latency ≤ cacheC2.hit_latency ∧ cacheC2.hit_threshold = 150 :=
  ⟨rfl, by decide, by decide, by decide, by decide⟩

/-- Concrete descriptor for exercising C3: geometry 64/64/1 (one set,
one way, buffer of 64 bytes), calibrated with hit 40 and miss 200. -/
def cacheC3 : cache_t :=
  (cache_init 64 64 1 true (fun _ => 0) (fun _ => 40) (fun _ => 200)).getD default

/-- C3 evidence: in cache_count_hits on set 0 of this geometry, the
post-increment pointer of the single iteration lands at offset 64 =
buffer_size, outside the owned buffer; the code does not abort: it
returns the normal hit count 1, having executed the sadface printf
diagnostic once. -/
theorem count_hits_out_of_buffer_only_prints :
    cache_init 64 64 1 true (fun _ => 0) (fun _ => 40) (fun _ => 200) = some cacheC3 ∧
    cacheC3.buffer_size ≤ probe_addr cacheC3 0 1 ∧
    cache_count_hits cacheC3 (fun _ => 0) 0 = (1, [0], 1) :=
  ⟨rfl, by decide, by decide⟩

/-- C4: each of the three set-level operations validates the set index:
on setno >= nsets it returns -1 having performed no buffer access, and
on setno < nsets it proceeds normally (result 0 for fill and flush with
one access per way, and a nonnegative hit count for count-hits). -/
theorem set_ops_validate_index (c : cache_t) (setno : Nat) :
    (c.nsets ≤ setno →
      cache_fill_set c setno = (-1, []) ∧
      cache_flush_set c setno = (-1, []) ∧
      ∀ dur, cache_count_hits c dur setno = (-1, [], 0)) ∧
    (setno < c.nsets →
      ((cache_fill_set c setno).1 = 0 ∧
        (cache_fill_set c setno).2.length = c.assoc) ∧
      ((cache_flush_set c setno).1 = 0 ∧
        (cache_flush_set c setno).2.length = c.assoc) ∧
      ∀ dur, 0 ≤ (cache_count_hits c dur setno).1) := by
  constructor
  · intro h
    refine ⟨?_, ?_, fun dur => ?_⟩ <;>
      simp [cache_fill_set, cache_flush_set, cache_count_hits, h]
  · intro h
    have h2 : ¬ c.nsets ≤ setno := by omega
    refine ⟨⟨?_, ?_⟩, ⟨?_, ?_⟩, fun dur => ?_⟩ <;>
      simp [cache_fill_set, cache_flush_set, cache_count_hits, h2,
        Int.natCast_nonneg]

/-- Concrete descriptor for the C4 witness: one set, so set index 5 is
out of range and set index 0 is in range. -/
def cacheC4 : cache_t :=
  (cache_init 64 64 1 true (fun _ => 0) (fun _ => 40) (fun _ => 200)).getD default

/-- Witness for C4 at a concrete descriptor and set indices. -/
theorem set_ops_validate_index_witness :
    cache_fill_set cacheC4 5 = (-1, []) ∧ (cache_fill_set cacheC4 0).1 = 0 :=
  ⟨((set_ops_validate_index cacheC4 5).1 (by decide)).1,
   (((set_ops_validate_index cacheC4 0).2 (by decide)).1).1⟩

/-- C9 (amended): on success, cache_init has zeroed exactly the first
size bytes of the owned buffer (the memset is over cache->size, not
cache->buffer_size); every byte at or beyond offset size keeps the
allocator-provided contents. -/
theorem cache_init_zeroes_first_size_bytes
    (size line_size assoc : Nat) (buf0 hm mm : Nat → Nat) (c : cache_t)
    (h : cache_init size line_size assoc true buf0 hm mm = some c) :
    (∀ i, i < size → c.buffer i = 0) ∧
    (∀ i, size ≤ i → c.buffer i = buf0 i) := by
  rw [cache_init_eq] at h
  have hc := (Option.some.inj h).symm
  subst hc
  constructor
  · intro i hi
    simp [hi]
  · intro i hi
    simp [show ¬ i < size by omega]

/-- Concrete descriptor for refuting the original C9: geometry 64/32/2
gives buffer_size = 128 while only the first 64 bytes are zeroed; the
allocator delivered a buffer full of 1 bytes. -/
def cacheC9 : cache_t :=
  (cache_init 64 32 2 true (fun _ => 1) (fun _ => 40) (fun _ => 200)).getD default

/-- Counterexample to C9 as stated: construction succeeds, the buffer
is buffer_size = 128 bytes, yet not all of them are zero at the end of
construction (byte 64 still holds its allocator value 1). -/
theorem cache_init_not_zeroing_whole_buffer :
    cache_init 64 32 2 true (fun _ => 1) (fun _ => 40) (fun _ => 200) = some cacheC9 ∧
    cacheC9.buffer_size = 128 ∧
    ¬ (∀ i, i < cacheC9.buffer_size → cacheC9.buffer i = 0) :=
  ⟨rfl, by decide, fun hall => absurd (hall 64 (by decide)) (by decide)⟩

/-- Witness for the amended C9 at the same concrete construction. -/
theorem cache_init_zeroes_first_size_bytes_witness :
    cacheC9.buffer 5 = 0 ∧ cacheC9.buffer 64 = 1 :=
  ⟨(cache_init_zeroes_first_size_bytes 64 32 2 (fun _ => 1) (fun _ => 40)
      (fun _ => 200) cacheC9 rfl).1 5 (by decide),
   (cache_init_zeroes_first_size_bytes 64 32 2 (fun _ => 1) (fun _ => 40)
      (fun _ => 200) cacheC9 rfl).2 64 (by decide)⟩

/-- C10 evidence: pin_current_thread discards the result of the
affinity call and returns 0 unconditionally; on a 4-CPU host asked to
pin to CPU 555 the affinity call fails with EINVAL, yet the function
still reports success. -/
theorem pin_current_thread_always_returns_zero :
    (∀ ncpus cpuno, (pin_current_thread ncpus cpuno).1 = 0) ∧
    (pin_current_thread 4 555).1 = 0 ∧
    (pin_current_thread 4 555).2 = EINVAL :=
  ⟨fun _ _ => rfl, rfl, by decide⟩

/-- C8: after a successful cache_init, the threshold is the integer
average of the two measured latencies; under hit <= miss it lies
between them; latencies 40 and 200 give exactly 120; and
cache_count_hits classifies an access as a hit exactly when its
duration is at or below the threshold (the count is the number of ways
whose timed read is at or below it). -/
theorem cache_init_threshold
    (size line_size assoc : Nat) (buf0 hm mm : Nat → Nat) (c : cache_t)
    (h : cache_init size line_size assoc true buf0 hm mm = some c) :
    c.hit_threshold = (c.hit_latency + c.miss_latency) / 2 ∧
    (c.hit_latency ≤ c.miss_latency →
      c.hit_latency ≤ c.hit_threshold ∧ c.hit_threshold ≤ c.miss_latency) ∧
    (c.hit_latency = 40 → c.miss_latency = 200 → c.hit_threshold = 120) ∧
    (∀ dur, classify_hit c dur = true ↔ dur ≤ c.hit_threshold) ∧
    (∀ dur setno, setno < c.nsets →
      (cache_count_hits c dur setno).1 =
        (((List.range c.assoc).filter
          (fun k => decide (dur k ≤ c.hit_threshold))).length : Int)) := by
  rw [cache_init_eq] at h
  have hc := (Option.some.inj h).symm
  subst hc
  have hhit := calib_mean_lt hm
  have hmiss := calib_mean_lt mm
  have hsum : (calib_mean hm + calib_mean mm) % SIZE_T_MOD =
      calib_mean hm + calib_mean mm := by
    rw [SIZE_T_MOD]
    omega
  refine ⟨?_, ?_, ?_, ?_, ?_⟩
  · dsimp only
    rw [hsum]
  · dsimp only
    rw [hsum]
    omega
  · dsimp only
    intro h40 h200
    rw [hsum, h40, h200]
  · intro dur
    simp [classify_hit]
  · intro dur setno hset
    dsimp only at hset ⊢
    rw [cache_count_hits]
    dsimp only
    rw [if_neg (by omega), List.countP_eq_length_filter]
    rfl

/-- Concrete descriptor for the C8 witness: constant calibration
measurements 40 (hit) and 200 (miss). -/
def cacheC8 : cache_t :=
  (cache_init 64 64 1 true (fun _ => 0) (fun _ => 40) (fun _ => 200)).getD default

/-- Witness for C8: the simulated zero-variance (40, 200) calibration
yields threshold 120, between the two latencies, and a read of
duration 100 is classified as a hit. -/
theorem cache_init_threshold_witness :
    cacheC8.hit_threshold = (cacheC8.hit_latency + cacheC8.miss_latency) / 2 ∧
    cacheC8.hit_latency ≤ cacheC8.hit_threshold ∧
    cacheC8.hit_threshold ≤ cacheC8.miss_latency ∧
    cacheC8.hit_threshold = 120 ∧
    classify_hit cacheC8 100 = true :=
  ⟨(cache_init_threshold 64 64 1 (fun _ => 0) (fun _ => 40) (fun _ => 200)
      cacheC8 rfl).1,
   ((cache_init_threshold 64 64 1 (fun _ => 0) (fun _ => 40) (fun _ => 200)
      cacheC8 rfl).2.1 (by decide)).1,
   ((cache_init_threshold 64 64 1 (fun _ => 0) (fun _ => 40) (fun _ => 200)
      cacheC8 rfl).2.1 (by decide)).2,
   (cache_init_threshold 64 64 1 (fun _ => 0) (fun _ => 40) (fun _ => 200)
      cacheC8 rfl).2.2.1 (by decide) (by decide),
   ((cache_init_threshold 64 64 1 (fun _ => 0) (fun _ => 40) (fun _ => 200)
      cacheC8 rfl).2.2.2.1 100).mpr (by decide)⟩

/-- C5: for any power-of-two geometry, the three masks computed by
cache_init partition the 64-bit address word: their union is all ones
and they are pairwise disjoint. The hypothesis ls + ns < 64 keeps the
tag shift inside the word, which is where the C shift of an unsigned
long is defined. -/
theorem cache_masks_partition
    (size line_size assoc ls ns : Nat) (buf0 hm mm : Nat → Nat) (c : cache_t)
    (h : cache_init size line_size assoc true buf0 hm mm = some c)
    (hline : c.line_size = 2 ^ ls)
    (hnsets : c.nsets = 2 ^ ns)
    (hshift : ls + ns < 64) :
    (c.offset_mask ||| c.index_mask ||| c.tag_mask = 2 ^ 64 - 1) ∧
    c.offset_mask &&& c.index_mask = 0 ∧
    c.offset_mask &&& c.tag_mask = 0 ∧
    c.index_mask &&& c.tag_mask = 0 := by
  rw [cache_init_eq] at h
  have hc := (Option.some.inj h).symm
  subst hc
  dsimp only at hline hnsets ⊢
  subst hline
  rw [hnsets, dlog2_pow (by omega), dlog2_pow (by omega)]
  have hLpos : 0 < (2:Nat) ^ ls := pow_pos (by decide) ls
  have hNpos : 0 < (2:Nat) ^ ns := pow_pos (by decide) ns
  have hL63 : (2:Nat) ^ ls ≤ 2 ^ 63 := Nat.pow_le_pow_right (by decide) (by omega)
  have hN63 : (2:Nat) ^ ns ≤ 2 ^ 63 := Nat.pow_le_pow_right (by decide) (by omega)
  have hNL : (2:Nat) ^ ns * 2 ^ ls = 2 ^ (ns + ls) := (pow_add 2 ns ls).symm
  have hNL64 : (2:Nat) ^ (ns + ls) ≤ 2 ^ 63 :=
    Nat.pow_le_pow_right (by decide) (by omega)
  have e1 : (2 ^ ls + (SIZE_T_MOD - 1)) % SIZE_T_MOD = 2 ^ ls - 1 := by
    rw [SIZE_T_MOD]
    omega
  have e2 : (2 ^ ns + (SIZE_T_MOD - 1)) % SIZE_T_MOD = 2 ^ ns - 1 := by
    rw [SIZE_T_MOD]
    omega
  have e3 : (2 ^ ns - 1) <<< ls % SIZE_T_MOD = (2 ^ ns - 1) <<< ls := by
    rw [SIZE_T_MOD, Nat.shiftLeft_eq]
    apply Nat.mod_eq_of_lt
    have hlt : (2 ^ ns - 1) * 2 ^ ls < 2 ^ ns * 2 ^ ls :=
      (Nat.mul_lt_mul_right hLpos).mpr (by omega)
    omega
  have e4 : (ns + ls) % UINT32_MOD = ns + ls := by
    rw [UINT32_MOD]
    omega
  have e5 : (SIZE_T_MOD - 1) <<< (ns + ls) % SIZE_T_MOD =
      (2 ^ (64 - (ns + ls)) - 1) <<< (ns + ls) := by
    rw [SIZE_T_MOD]
    exact topMask_eq 64 (ns + ls) (by omega)
  rw [e1, e2, e4, e3, e5]
  have hsplit : ns + ls = ls + ns := by omega
  have hunion : (2 ^ ls - 1) ||| (2 ^ ns - 1) <<< ls |||
      (2 ^ (64 - (ns + ls)) - 1) <<< (ns + ls) = 2 ^ 64 - 1 := by
    rw [lowMask_or_shiftLeft, hsplit, lowMask_or_shiftLeft,
      show ls + ns + (64 - (ls + ns)) = 64 by omega]
  have htagsplit : (2 ^ (64 - (ns + ls)) - 1) <<< (ns + ls) =
      ((2 ^ (64 - (ns + ls)) - 1) <<< ns) <<< ls := by
    rw [← Nat.shiftLeft_add]
  refine ⟨hunion, lowMask_and_shiftLeft ls _, ?_, ?_⟩
  · rw [htagsplit]
    exact lowMask_and_shiftLeft ls _
  · rw [htagsplit, shiftLeft_and_shiftLeft, lowMask_and_shiftLeft ns _,
      Nat.zero_shiftLeft]

/-- Concrete descriptor for the C5 witness: geometry 32768/64/8, so 64
sets of 64-byte lines (ls = ns = 6). -/
def cacheC5 : cache_t :=
  (cache_init 32768 64 8 true (fun _ => 0) (fun _ => 40) (fun _ => 200)).getD default

/-- Witness for C5 at the concrete geometry 32768/64/8. -/
theorem cache_masks_partition_witness :
    (cacheC5.offset_mask ||| cacheC5.index_mask ||| cacheC5.tag_mask =
      2 ^ 64 - 1) ∧
    cacheC5.offset_mask &&& cacheC5.index_mask = 0 ∧
    cacheC5.offset_mask &&& cacheC5.tag_mask = 0 ∧
    cacheC5.index_mask &&& cacheC5.tag_mask = 0 :=
  cache_masks_partition 32768 64 8 6 6 (fun _ => 0) (fun _ => 40) (fun _ => 200)
    cacheC5 rfl (by decide) (by decide) (by decide)

/-- C1: for a power-of-two geometry whose buffer size fits size_t, the
probe addresses (offsets from the buffer base) of the set operations
stay inside the owned buffer with a full line to spare, carry the index
bits of the target set, and have pairwise distinct addresses and
pairwise distinct tag bits across the ways of one set. -/
theorem probe_addr_geometry
    (size ls ns assoc : Nat) (buf0 hm mm : Nat → Nat) (c : cache_t)
    (h : cache_init size (2 ^ ls) assoc true buf0 hm mm = some c)
    (hassoc : 0 < assoc)
    (hbuf : size * assoc < 2 ^ 64)
    (hnsets : size / (2 ^ ls * assoc) = 2 ^ ns) :
    ∀ setno, setno < c.nsets → ∀ k, k < c.assoc →
      (probe_addr c setno k + c.line_size ≤ c.buffer_size) ∧
      ((probe_addr c setno k >>> c.index_shift) &&& (c.nsets - 1) = setno) ∧
      (∀ j, j < c.assoc → j ≠ k →
        probe_addr c setno j ≠ probe_addr c setno k ∧
        probe_addr c setno j >>> c.tag_shift ≠
          probe_addr c setno k >>> c.tag_shift) := by
  have hLpos : 0 < (2:Nat) ^ ls := pow_pos (by decide) ls
  have hNpos : 0 < (2:Nat) ^ ns := pow_pos (by decide) ns
  have hLA_le : 2 ^ ls * assoc ≤ size := by
    by_contra hcon
    push_neg at hcon
    rw [Nat.div_eq_of_lt hcon] at hnsets
    omega
  have hsize64 : size < 2 ^ 64 :=
    lt_of_le_of_lt (Nat.le_mul_of_pos_right size hassoc) hbuf
  have hLA64 : 2 ^ ls * assoc < 2 ^ 64 := lt_of_le_of_lt hLA_le hsize64
  have hls64 : ls < 64 := by
    by_contra hcon
    push_neg at hcon
    have h1 : (2:Nat) ^ 64 ≤ 2 ^ ls := Nat.pow_le_pow_right (by decide) hcon
    have h2 : 2 ^ ls ≤ 2 ^ ls * assoc := Nat.le_mul_of_pos_right _ hassoc
    omega
  have hns64 : ns < 64 := by
    by_contra hcon
    push_neg at hcon
    have h1 : (2:Nat) ^ 64 ≤ 2 ^ ns := Nat.pow_le_pow_right (by decide) hcon
    have h2 : 2 ^ ns ≤ size := hnsets ▸ Nat.div_le_self _ _
    omega
  rw [cache_init_eq] at h
  have hc := (Option.some.inj h).symm
  subst hc
  simp only [probe_addr]
  have hmodLA : 2 ^ ls * assoc % SIZE_T_MOD = 2 ^ ls * assoc := by
    rw [SIZE_T_MOD]
    exact Nat.mod_eq_of_lt hLA64
  have hmodBS : size * assoc % SIZE_T_MOD = size * assoc := by
    rw [SIZE_T_MOD]
    exact Nat.mod_eq_of_lt hbuf
  rw [hmodLA, hmodBS, hnsets, dlog2_pow hls64, dlog2_pow hns64,
    show (ns + ls) % UINT32_MOD = ns + ls by rw [UINT32_MOD]; omega]
  intro setno hsetno k hk
  simp only [Nat.shiftLeft_eq, Nat.shiftRight_eq_div_pow]
  have eform : ∀ m : Nat,
      setno * 2 ^ ls + m * (2 ^ ns * 2 ^ ls) = (setno + m * 2 ^ ns) * 2 ^ ls :=
    fun m => by ring
  have hkey : 2 ^ ns * (2 ^ ls * assoc) ≤ size := by
    rw [← hnsets]
    exact Nat.div_mul_le_self size (2 ^ ls * assoc)
  have htag : ∀ m, (setno * 2 ^ ls + m * (2 ^ ns * 2 ^ ls)) / 2 ^ (ns + ls) = m := by
    intro m
    rw [eform m, pow_add, Nat.mul_div_mul_right _ _ hLpos,
      Nat.add_mul_div_right _ _ hNpos, Nat.div_eq_of_lt hsetno]
    omega
  refine ⟨?_, ?_, ?_⟩
  · calc setno * 2 ^ ls + k * (2 ^ ns * 2 ^ ls) + 2 ^ ls
        = (setno + 1) * 2 ^ ls + k * (2 ^ ns * 2 ^ ls) := by ring
      _ ≤ 2 ^ ns * 2 ^ ls + k * (2 ^ ns * 2 ^ ls) :=
        Nat.add_le_add_right (mul_le_mul_right' (by omega) _) _
      _ = (k + 1) * (2 ^ ns * 2 ^ ls) := by ring
      _ ≤ assoc * (2 ^ ns * 2 ^ ls) := mul_le_mul_right' (by omega) _
      _ = 2 ^ ns * (2 ^ ls * assoc) := by ring
      _ ≤ size := hkey
      _ ≤ size * assoc := Nat.le_mul_of_pos_right _ hassoc
  · rw [eform k, Nat.mul_div_cancel _ hLpos, and_two_pow_sub_one,
      Nat.add_mul_mod_self_right]
    exact Nat.mod_eq_of_lt hsetno
  · intro j hj hjk
    constructor
    · intro heq
      rw [eform j, eform k] at heq
      have h1 := Nat.eq_of_mul_eq_mul_right hLpos heq
      have h2 := Nat.add_left_cancel h1
      exact hjk (Nat.eq_of_mul_eq_mul_right hNpos h2)
    · rw [htag j, htag k]
      exact hjk

/-- Concrete descriptor for the C1 witness: geometry 32768/64/8, buffer
of 262144 bytes. -/
def cacheC1 : cache_t :=
  (cache_init 32768 64 8 true (fun _ => 0) (fun _ => 40) (fun _ => 200)).getD default

/-- Witness for C1 at set 3, way 1, against way 2. -/
theorem probe_addr_geometry_witness :
    (probe_addr cacheC1 3 1 + cacheC1.line_size ≤ cacheC1.buffer_size) ∧
    ((probe_addr cacheC1 3 1 >>> cacheC1.index_shift) &&& (cacheC1.nsets - 1) = 3) ∧
    probe_addr cacheC1 3 2 ≠ probe_addr cacheC1 3 1 ∧
    probe_addr cacheC1 3 2 >>> cacheC1.tag_shift ≠
      probe_addr cacheC1 3 1 >>> cacheC1.tag_shift :=
  ⟨(probe_addr_geometry 32768 6 6 8 (fun _ => 0) (fun _ => 40) (fun _ => 200)
      cacheC1 rfl (by decide) (by decide) (by decide) 3 (by decide) 1 (by decide)).1,
   (probe_addr_geometry 32768 6 6 8 (fun _ => 0) (fun _ => 40) (fun _ => 200)
      cacheC1 rfl (by decide) (by decide) (by decide) 3 (by decide) 1 (by decide)).2.1,
   ((probe_addr_geometry 32768 6 6 8 (fun _ => 0) (fun _ => 40) (fun _ => 200)
      cacheC1 rfl (by decide) (by decide) (by decide) 3 (by decide) 1 (by decide)).2.2
      2 (by decide) (by decide)).1,
   ((probe_addr_geometry 32768 6 6 8 (fun _ => 0) (fun _ => 40) (fun _ => 200)
      cacheC1 rfl (by decide) (by decide) (by decide) 3 (by decide) 1 (by decide)).2.2
      2 (by decide) (by decide)).2⟩

end Covert
